import Mathlib

/-!
Shallow embedding of the chat/message data model and server actions of the
messaging application (drizzle/SQLite store, `src/lib/actions.ts` and
`src/db/schema.ts`).

The four relations (`users`, `chats`, `chat_members`, `messages`) are lists of
rows; SQLite AUTOINCREMENT primary keys are modelled as `next…Id` counters in
the store state.  Timestamps (`created_at`, `joined_at`, `last_seen`, stamped
by drizzle's `$defaultFn(() => new Date())`) are `Nat` milliseconds; the
ambient wall clock is passed as a `now` argument.  Each server action receives
the already-resolved session (`Option AuthUser`, the result of
`getCurrentUser`) and the current store, and returns its result together with
the new store.  A mutation that violates one of the two SQLite unique indexes
(`users_username_unique`, `users_phone_unique`) raises in the original; this
is modelled by a distinguished `raised` outcome that leaves the store
unchanged.
-/

/-- A row of the `users` table (`src/db/schema.ts`). -/
structure User where
  id : Nat
  username : String
  phone : String
  passwordHash : String
  displayName : String
  bio : String
  avatarUrl : Option String
  lastSeen : Nat
  isOnline : Bool
  createdAt : Nat
deriving DecidableEq, Repr

/-- A row of the `chats` table. `ctype` is the `type` column
("private" | "group" | "channel"). -/
structure Chat where
  id : Nat
  ctype : String
  name : Option String
  chatDescription : Option String
  avatarUrl : Option String
  createdBy : Option Nat
  createdAt : Nat
deriving DecidableEq, Repr

/-- A row of the `chat_members` table. -/
structure ChatMember where
  id : Nat
  chatId : Nat
  userId : Nat
  role : String
  joinedAt : Nat
deriving DecidableEq, Repr

/-- A row of the `messages` table. `text` is nullable in the schema. -/
structure Message where
  id : Nat
  chatId : Nat
  senderId : Nat
  text : Option String
  replyToId : Option Nat
  isEdited : Bool
  isDeleted : Bool
  createdAt : Nat
deriving DecidableEq, Repr

/-- The store: the four relations plus the AUTOINCREMENT counters. -/
structure DB where
  users : List User
  chats : List Chat
  chatMembers : List ChatMember
  messages : List Message
  nextUserId : Nat
  nextChatId : Nat
  nextMemberId : Nat
  nextMessageId : Nat
deriving DecidableEq, Repr

/-- The session claims carried by the JWT (`AuthUser` in `src/lib/auth.ts`). -/
structure AuthUser where
  id : Nat
  username : String
  displayName : String
  phone : String
deriving DecidableEq, Repr

/-- JavaScript `String.prototype.trim` on the character list: drop leading
whitespace. -/
def dropLeadingWs : List Char → List Char
  | [] => []
  | c :: cs => if c.isWhitespace then dropLeadingWs cs else c :: cs

/-- JavaScript `text.trim()`: whitespace removed from both ends. -/
def jsTrim (s : String) : String :=
  ⟨dropLeadingWs ((dropLeadingWs s.data.reverse).reverse)⟩

/-- ASCII lower-casing of one character. -/
def asciiLower (c : Char) : Char :=
  if c.isUpper then Char.ofNat (c.toNat + 32) else c

/-- `s.toLowerCase()` restricted to ASCII case folding (the repository's
usernames are `[A-Za-z0-9_]+`, so ASCII folding coincides with JavaScript's
on every string the folding result is compared against). -/
def jsToLower (s : String) : String := ⟨s.data.map asciiLower⟩

/-- `/^[a-zA-Z0-9_]+$/.test(username)`: nonempty and every character a letter,
digit or underscore. -/
def usernameOk (s : String) : Bool :=
  !s.data.isEmpty && s.data.all fun c =>
    c.isLower || c.isUpper || c.isDigit || c == '_'

/-- `bcrypt.hash(password, 10)`: modelled abstractly as an injective tagging
(no claim depends on the hash's value, only that the plaintext is not stored). -/
def bcryptHash (password : String) : String := "$2a$10$" ++ password

/-- SQLite `LIKE '%pat%'` (default ASCII-case-insensitive collation):
case-folded substring containment. -/
def likeContains (hay pat : String) : Bool :=
  let h := (jsToLower hay).data
  let p := (jsToLower pat).data
  (List.range (h.length + 1)).any fun i => p.isPrefixOf (h.drop i)

/-- Outcome of `registerAction`:  `err` is a returned `{ error: string }`,
`ok` the created row (followed by redirect), `raised` an uncaught unique-index
violation from the store. -/
inductive RegisterResult where
  | err (msg : String)
  | ok (u : User)
  | raised
deriving DecidableEq, Repr

/-- `registerAction(formData)` (`src/lib/actions.ts` lines 13-59).  FormData
fields are strings; an absent field (`null`) behaves exactly like `""` under
the `!field` checks, so both are modelled as `""`. -/
def registerAction (phone username displayName password : String)
    (now : Nat) (db : DB) : RegisterResult × DB :=
  if phone = "" || username = "" || displayName = "" || password = "" then
    (.err "All fields are required", db)
  else if password.length < 6 then
    (.err "Password must be at least 6 characters", db)
  else if !usernameOk username then
    (.err "Username can only contain letters, numbers, and underscores", db)
  else
    -- `or(eq(users.phone, phone), eq(users.username, username))`:
    -- SQLite `=` on text uses BINARY collation, i.e. case-sensitive equality,
    -- and compares the *raw* submitted username.
    let existing := db.users.filter fun u => u.phone == phone || u.username == username
    if !existing.isEmpty then
      (.err "Phone number or username already registered", db)
    else
      -- insert with username lowercased; the two unique indexes are enforced
      -- by the store and raise on violation.
      let uname := jsToLower username
      if db.users.any (fun u => u.username == uname || u.phone == phone) then
        (.raised, db)
      else
        let u : User :=
          { id := db.nextUserId, username := uname, phone := phone,
            passwordHash := bcryptHash password, displayName := displayName,
            bio := "", avatarUrl := none, lastSeen := now, isOnline := false,
            createdAt := now }
        (.ok u, { db with users := db.users ++ [u], nextUserId := db.nextUserId + 1 })

/-- Result of `createPrivateChat` / `createGroupChat`: a `{ chatId }` payload
or a `{ error }` payload. -/
inductive ChatCreateResult where
  | err (msg : String)
  | chatId (id : Nat)
deriving DecidableEq, Repr

/-- The body of the dedup loop in `createPrivateChat` (lines 119-136): a chat
id passes when a `chats` row with that id and type "private" exists, the chat
has exactly two `chat_members` rows, and one of them is the target. -/
def isPrivateMatch (db : DB) (target cid : Nat) : Bool :=
  let members := db.chatMembers.filter fun cm => cm.chatId == cid
  let chat := db.chats.filter fun c => c.id == cid && c.ctype == "private"
  !chat.isEmpty && members.length == 2 && members.any fun m => m.userId == target

/-- The scan of `createPrivateChat`: the requester's membership rows in table
order, mapped to chat ids, first id passing `isPrivateMatch` wins. -/
def findPrivateChat (db : DB) (uid target : Nat) : Option Nat :=
  ((db.chatMembers.filter fun cm => cm.userId == uid).map fun cm => cm.chatId).find?
    (isPrivateMatch db target)

/-- `createPrivateChat(targetUserId)` (lines 109-151): return the first
existing two-member private chat of the requester containing the target, else
insert a new `chats` row and two `chat_members` rows. -/
def createPrivateChat (cu : Option AuthUser) (targetUserId : Nat)
    (now : Nat) (db : DB) : ChatCreateResult × DB :=
  match cu with
  | none => (.err "Not authenticated", db)
  | some u =>
    match findPrivateChat db u.id targetUserId with
    | some cid => (.chatId cid, db)
    | none =>
      let c : Chat :=
        { id := db.nextChatId, ctype := "private", name := none,
          chatDescription := none, avatarUrl := none, createdBy := some u.id,
          createdAt := now }
      let m1 : ChatMember :=
        { id := db.nextMemberId, chatId := c.id, userId := u.id,
          role := "member", joinedAt := now }
      let m2 : ChatMember :=
        { id := db.nextMemberId + 1, chatId := c.id, userId := targetUserId,
          role := "member", joinedAt := now }
      (.chatId c.id,
        { db with chats := db.chats ++ [c],
                  chatMembers := db.chatMembers ++ [m1, m2],
                  nextChatId := db.nextChatId + 1,
                  nextMemberId := db.nextMemberId + 2 })

/-- `createGroupChat(name, memberIds)` (lines 153-174): one `chats` row of
type "group", then one `chat_members` row per element of
`[currentUser.id, ...memberIds]`, the first with role "owner", the rest
"member".  No deduplication of the list. -/
def createGroupChat (cu : Option AuthUser) (name : String)
    (memberIds : List Nat) (now : Nat) (db : DB) : ChatCreateResult × DB :=
  match cu with
  | none => (.err "Not authenticated", db)
  | some u =>
    let c : Chat :=
      { id := db.nextChatId, ctype := "group", name := some name,
        chatDescription := none, avatarUrl := none, createdBy := some u.id,
        createdAt := now }
    let allMembers := u.id :: memberIds
    let newRows := (allMembers.enum).map fun p =>
      ({ id := db.nextMemberId + p.1, chatId := c.id, userId := p.2,
         role := if p.1 = 0 then "owner" else "member",
         joinedAt := now } : ChatMember)
    (.chatId c.id,
      { db with chats := db.chats ++ [c],
                chatMembers := db.chatMembers ++ newRows,
                nextChatId := db.nextChatId + 1,
                nextMemberId := db.nextMemberId + allMembers.length })

/-- Result of `sendMessage`: the inserted row or a `{ error }` payload. -/
inductive SendResult where
  | err (msg : String)
  | message (m : Message)
deriving DecidableEq, Repr

/-- `sendMessage(chatId, text, replyToId?)` (lines 176-191): rejects
blank-after-trim text, stores the trimmed text; `replyToId || null` maps an
absent (or 0) reply id to null. -/
def sendMessage (cu : Option AuthUser) (chatId : Nat) (text : String)
    (replyToId : Option Nat) (now : Nat) (db : DB) : SendResult × DB :=
  match cu with
  | none => (.err "Not authenticated", db)
  | some u =>
    if jsTrim text = "" then (.err "Message cannot be empty", db)
    else
      let m : Message :=
        { id := db.nextMessageId, chatId := chatId, senderId := u.id,
          text := some (jsTrim text),
          replyToId := match replyToId with
                       | some r => if r = 0 then none else some r
                       | none => none,
          isEdited := false, isDeleted := false, createdAt := now }
      (.message m,
        { db with messages := db.messages ++ [m],
                  nextMessageId := db.nextMessageId + 1 })

/-- Result of `editMessage` / `deleteMessage` / `updateProfile`: a
`{ success: true }` or `{ error }` payload; `raised` models an uncaught
unique-index violation on `users` (possible only for `updateProfile`). -/
inductive SimpleResult where
  | err (msg : String)
  | success
  | raised
deriving DecidableEq, Repr

/-- `editMessage(messageId, newText)` (lines 193-203): update `text` and
`is_edited` on the rows matching both the id and the caller as sender; always
returns `{ success: true }`, even when zero rows matched. -/
def editMessage (cu : Option AuthUser) (messageId : Nat) (newText : String)
    (db : DB) : SimpleResult × DB :=
  match cu with
  | none => (.err "Not authenticated", db)
  | some u =>
    (.success,
      { db with messages := db.messages.map fun m =>
          if m.id == messageId && m.senderId == u.id then
            { m with text := some newText, isEdited := true }
          else m })

/-- `deleteMessage(messageId)` (lines 205-215): set `is_deleted` on the rows
matching both the id and the caller as sender; always `{ success: true }`. -/
def deleteMessage (cu : Option AuthUser) (messageId : Nat)
    (db : DB) : SimpleResult × DB :=
  match cu with
  | none => (.err "Not authenticated", db)
  | some u =>
    (.success,
      { db with messages := db.messages.map fun m =>
          if m.id == messageId && m.senderId == u.id then
            { m with isDeleted := true }
          else m })

/-- A `chat_members × users` join row as selected by `getUserChats`
(lines 234-246). -/
structure MemberView where
  userId : Nat
  role : String
  username : String
  displayName : String
  avatarUrl : Option String
  isOnline : Bool
  lastSeen : Nat
deriving DecidableEq, Repr

/-- A chat summary produced by `getUserChats` (lines 269-276): the spread
`chats` row with `name`/`avatarUrl` possibly substituted, the joined member
list, the latest non-deleted message and the counterpart's online flag. -/
structure ChatSummary where
  id : Nat
  ctype : String
  name : Option String
  chatDescription : Option String
  avatarUrl : Option String
  createdBy : Option Nat
  createdAt : Nat
  members : List MemberView
  lastMessage : Option Message
  otherUserOnline : Bool
deriving DecidableEq, Repr

/-- `SELECT … FROM messages WHERE chat_id = ? AND is_deleted = false ORDER BY
created_at DESC LIMIT 1` (lines 248-253): a row of maximal `created_at` among
the non-deleted messages of the chat.  SQLite leaves the order of equal keys
unspecified; this picks the first row attaining the maximum, and only the
(maximal) `created_at` of the result is ever consumed. -/
def latestOf : List Message → Option Message
  | [] => none
  | m :: ms =>
    match latestOf ms with
    | none => some m
    | some m2 => if m.createdAt < m2.createdAt then some m2 else some m

/-- The latest non-deleted message of a chat. -/
def lastMsg (db : DB) (cid : Nat) : Option Message :=
  latestOf (db.messages.filter fun m => m.chatId == cid && !m.isDeleted)

/-- The inner join `chat_members ⋈ users` on `user_id = users.id` restricted
to one chat (lines 234-246). -/
def membersOf (db : DB) (cid : Nat) : List MemberView :=
  (db.chatMembers.filter fun cm => cm.chatId == cid).flatMap fun cm =>
    (db.users.filter fun u => u.id == cm.userId).map fun u =>
      { userId := cm.userId, role := cm.role, username := u.username,
        displayName := u.displayName, avatarUrl := u.avatarUrl,
        isOnline := u.isOnline, lastSeen := u.lastSeen }

/-- One iteration of the `getUserChats` loop (lines 230-277): `none` when the
`chats` row is missing (`continue`). -/
def buildSummary (db : DB) (requesterId cid : Nat) : Option ChatSummary :=
  match (db.chats.filter fun c => c.id == cid).head? with
  | none => none
  | some chat =>
    let members := membersOf db cid
    let last := lastMsg db cid
    let other :=
      if chat.ctype == "private" then
        members.find? fun m => !(m.userId == requesterId)
      else none
    some
      { id := chat.id, ctype := chat.ctype,
        name := match other with
                | some o => some o.displayName
                | none => chat.name,
        chatDescription := chat.chatDescription,
        avatarUrl := match other with
                     | some o => o.avatarUrl
                     | none => chat.avatarUrl,
        createdBy := chat.createdBy, createdAt := chat.createdAt,
        members := members, lastMessage := last,
        otherUserOnline := match other with
                           | some o => o.isOnline
                           | none => false }

/-- The sort key of the comparator at lines 280-284:
`a.lastMessage?.createdAt?.getTime() || a.createdAt?.getTime() || 0` — a
last-message time of 0 (falsy) falls through to the chat's creation time. -/
def jsSortTime (s : ChatSummary) : Nat :=
  match s.lastMessage with
  | some m => if m.createdAt = 0 then s.createdAt else m.createdAt
  | none => s.createdAt

/-- The unsorted chat list of `getUserChats`: one summary per membership row
of the requester, in table order. -/
def userChatList (db : DB) (requesterId : Nat) : List ChatSummary :=
  ((db.chatMembers.filter fun cm => cm.userId == requesterId).map
    fun cm => cm.chatId).filterMap (buildSummary db requesterId)

/-- `getUserChats()` (lines 219-287): build the summaries, then
`chatList.sort((a, b) => bTime - aTime)` — a stable sort descending on
`jsSortTime`. -/
def getUserChats (cu : Option AuthUser) (db : DB) : List ChatSummary :=
  match cu with
  | none => []
  | some u =>
    (userChatList db u.id).mergeSort fun a b => jsSortTime b ≤ jsSortTime a

/-- A `messages × users` join row as selected by `getChatMessages`
(lines 293-306). -/
structure MessageView where
  id : Nat
  chatId : Nat
  senderId : Nat
  text : Option String
  replyToId : Option Nat
  isEdited : Bool
  isDeleted : Bool
  createdAt : Nat
  senderUsername : String
  senderDisplayName : String
  senderAvatar : Option String
deriving DecidableEq, Repr

/-- `getChatMessages(chatId)` (lines 289-313): every message of the chat —
deleted ones included, no membership check — joined with its sender and
ordered ascending by `created_at` (stable on equal keys). -/
def getChatMessages (cu : Option AuthUser) (chatId : Nat) (db : DB) :
    List MessageView :=
  match cu with
  | none => []
  | some _ =>
    let joined := (db.messages.filter fun m => m.chatId == chatId).flatMap
      fun m => (db.users.filter fun u => u.id == m.senderId).map fun u =>
        ({ id := m.id, chatId := m.chatId, senderId := m.senderId,
           text := m.text, replyToId := m.replyToId, isEdited := m.isEdited,
           isDeleted := m.isDeleted, createdAt := m.createdAt,
           senderUsername := u.username, senderDisplayName := u.displayName,
           senderAvatar := u.avatarUrl } : MessageView)
    joined.mergeSort fun a b => a.createdAt ≤ b.createdAt

/-- A search result row (lines 322-328). -/
structure SearchRow where
  id : Nat
  username : String
  displayName : String
  avatarUrl : Option String
  isOnline : Bool
deriving DecidableEq, Repr

/-- `searchUsers(query)` (lines 315-343): blank query gives `[]`; otherwise
`LIKE '%query.toLowerCase()%'` on username unioned with `LIKE '%query%'` on
display name, conjoined with the no-op placeholder `eq(users.id, users.id)`,
`LIMIT 20`, then the requester is filtered out client-side (after the cap). -/
def searchUsers (cu : Option AuthUser) (query : String) (db : DB) :
    List SearchRow :=
  match cu with
  | none => []
  | some me =>
    if jsTrim query = "" then []
    else
      let rows := (db.users.filter fun u =>
        (likeContains u.username (jsToLower query) ||
         likeContains u.displayName query) && u.id == u.id).take 20
      (rows.map fun u =>
        ({ id := u.id, username := u.username, displayName := u.displayName,
           avatarUrl := u.avatarUrl, isOnline := u.isOnline } : SearchRow)).filter
        fun r => !(r.id == me.id)

/-- `updateProfile(formData)` (lines 356-374).  An absent FormData field is
`null`; under `!displayName`, `bio || ""` and `username?.toLowerCase() || …`
a `null` field and a `""` field behave identically, so both are modelled as
`""`.  The `users_username_unique` index raises when the new username collides
with another user's. -/
def updateProfile (cu : Option AuthUser)
    (displayName bio username : String) (db : DB) : SimpleResult × DB :=
  match cu with
  | none => (.err "Not authenticated", db)
  | some u =>
    if displayName = "" then (.err "Display name is required", db)
    else
      let newUsername := if jsToLower username = "" then u.username
                         else jsToLower username
      if db.users.any fun r => !(r.id == u.id) && r.username == newUsername then
        (.raised, db)
      else
        (.success,
          { db with users := db.users.map fun r =>
              if r.id == u.id then
                { r with displayName := displayName, bio := bio,
                         username := newUsername }
              else r })

/-- Primary-key uniqueness of the `messages` table (AUTOINCREMENT ids). -/
def msgIdsNodup (db : DB) : Prop := (db.messages.map Message.id).Nodup

/-- AUTOINCREMENT freshness for `chats`: every chat id and every membership
row's chat reference is below the next id to be allocated. -/
def ChatIdsFresh (db : DB) : Prop :=
  (∀ c ∈ db.chats, c.id < db.nextChatId) ∧
  (∀ cm ∈ db.chatMembers, cm.chatId < db.nextChatId)

/-- The sort key the spec describes for the chat list: the timestamp of the
most recent non-deleted message when one exists, else the chat's own creation
timestamp.  (Contrast `jsSortTime`, the key actually computed, which falls
back to the creation time when the last message's time is the falsy 0.) -/
def specSortKey (s : ChatSummary) : Nat :=
  match s.lastMessage with
  | some m => m.createdAt
  | none => s.createdAt

/- Concrete fixture: two users, one private chat between them with one
message, used by witnesses and counterexamples. -/

def sampleUser : User :=
  { id := 1, username := "bob", phone := "1", passwordHash := "h",
    displayName := "Bobby", bio := "hello", avatarUrl := none,
    lastSeen := 5, isOnline := false, createdAt := 5 }

def sampleUser2 : User :=
  { id := 2, username := "alice", phone := "2", passwordHash := "h2",
    displayName := "Alice", bio := "", avatarUrl := none,
    lastSeen := 6, isOnline := true, createdAt := 6 }

def sampleAuth : AuthUser :=
  { id := 1, username := "bob", displayName := "Bobby", phone := "1" }

def sampleAuth2 : AuthUser :=
  { id := 2, username := "alice", displayName := "Alice", phone := "2" }

def sampleChat : Chat :=
  { id := 1, ctype := "private", name := none, chatDescription := none,
    avatarUrl := none, createdBy := some 1, createdAt := 6 }

def sampleMsg : Message :=
  { id := 1, chatId := 1, senderId := 1, text := some "hi",
    replyToId := none, isEdited := false, isDeleted := false, createdAt := 7 }

def sampleDB : DB :=
  { users := [sampleUser, sampleUser2], chats := [sampleChat],
    chatMembers :=
      [{ id := 1, chatId := 1, userId := 1, role := "member", joinedAt := 6 },
       { id := 2, chatId := 1, userId := 2, role := "member", joinedAt := 6 }],
    messages := [sampleMsg],
    nextUserId := 3, nextChatId := 2, nextMemberId := 3, nextMessageId := 2 }

/-- The fixture store with no chats yet (users only). -/
def sampleDB0 : DB := { sampleDB with chats := [], chatMembers := [] }

/-- C10: `getChatMessages` performs no membership or authorization check
beyond requiring some valid session: for every chat id and store, every
authenticated caller receives the same full message list, so the result
depends only on the chat id and the store, not on the caller's identity. -/
theorem getChatMessages_caller_independent (u1 u2 : AuthUser) (chatId : Nat)
    (db : DB) :
    getChatMessages (some u1) chatId db = getChatMessages (some u2) chatId db :=
  rfl

/-- C7: for every authenticated requester and query, `searchUsers` returns at
most 20 rows and never the requester's own identifier. -/
theorem searchUsers_cap_and_excludes_self (me : AuthUser) (q : String)
    (db : DB) :
    (searchUsers (some me) q db).length ≤ 20 ∧
    ∀ r ∈ searchUsers (some me) q db, r.id ≠ me.id := by
  constructor
  · show (searchUsers (some me) q db).length ≤ 20
    unfold searchUsers
    by_cases h : jsTrim q = ""
    · simp [h]
    · simp only [h, if_false]
      calc _ ≤ ((((db.users.filter fun u =>
              (likeContains u.username (jsToLower q) ||
               likeContains u.displayName q) && u.id == u.id).take 20).map
              fun u => ({ id := u.id, username := u.username,
                          displayName := u.displayName,
                          avatarUrl := u.avatarUrl,
                          isOnline := u.isOnline } : SearchRow))).length :=
              List.length_filter_le _ _
        _ ≤ 20 := by
              rw [List.length_map, List.length_take]
              exact min_le_left _ _
  · intro r hr
    unfold searchUsers at hr
    by_cases h : jsTrim q = ""
    · simp [h] at hr
    · simp only [h, if_false] at hr
      have := (List.mem_filter.mp hr).2
      simpa using this

/-- C5: `sendMessage` rejects blank-after-trim text and inserts nothing; on
non-blank text it inserts exactly one row whose body is the trimmed text
(so `send("  hi  ")` stores `"hi"`). -/
theorem sendMessage_trims_and_rejects_blank (u : AuthUser) (chatId : Nat)
    (text : String) (replyToId : Option Nat) (now : Nat) (db : DB) :
    (jsTrim text = "" →
      sendMessage (some u) chatId text replyToId now db
        = (.err "Message cannot be empty", db)) ∧
    (jsTrim text ≠ "" →
      ∃ m : Message,
        sendMessage (some u) chatId text replyToId now db
          = (.message m,
             { db with messages := db.messages ++ [m],
                       nextMessageId := db.nextMessageId + 1 }) ∧
        m.text = some (jsTrim text)) := by
  constructor
  · intro h
    simp [sendMessage, h]
  · intro h
    refine ⟨{ id := db.nextMessageId, chatId := chatId, senderId := u.id,
              text := some (jsTrim text),
              replyToId := match replyToId with
                           | some r => if r = 0 then none else some r
                           | none => none,
              isEdited := false, isDeleted := false, createdAt := now },
            ?_, rfl⟩
    simp [sendMessage, h]

/-- C5 witness: `send("   ")` fails and changes nothing; `send("  hi  ")`
stores `"hi"`. -/
theorem sendMessage_trims_and_rejects_blank_witness :
    sendMessage (some sampleAuth) 1 "   " none 10 sampleDB
      = (.err "Message cannot be empty", sampleDB) ∧
    ∃ m : Message,
      (sendMessage (some sampleAuth) 1 "  hi  " none 10 sampleDB).1
        = .message m ∧ m.text = some "hi" := by
  constructor
  · exact (sendMessage_trims_and_rejects_blank sampleAuth 1 "   " none 10
      sampleDB).1 (by decide)
  · obtain ⟨m, hm, ht⟩ := (sendMessage_trims_and_rejects_blank sampleAuth 1
      "  hi  " none 10 sampleDB).2 (by decide)
    refine ⟨m, by rw [hm], ?_⟩
    rw [ht]; decide

/-- C3: editing a message whose sender is not the caller is a silent no-op:
the action reports success and the store — in particular the message's text,
edited flag and every other field — is unchanged. -/
theorem editMessage_by_nonsender_is_noop (e : AuthUser) (M : Message)
    (newText : String) (db : DB) (hM : M ∈ db.messages)
    (hns : M.senderId ≠ e.id) (hids : msgIdsNodup db) :
    editMessage (some e) M.id newText db = (.success, db) := by
  have hmap : (db.messages.map fun m =>
      if m.id == M.id && m.senderId == e.id then
        { m with text := some newText, isEdited := true }
      else m) = db.messages := by
    have := List.map_congr_left (l := db.messages)
      (f := fun m => if m.id == M.id && m.senderId == e.id then
        { m with text := some newText, isEdited := true } else m) (g := id)
      ?_
    · simpa using this
    · intro a ha
      by_cases hid : a.id = M.id
      · have haM : a = M := by
          have hinj := List.inj_on_of_nodup_map (f := Message.id) hids
          exact hinj ha hM hid
        subst haM
        simp [hns]
      · simp [hid]
  have hred : editMessage (some e) M.id newText db
      = (.success, { db with messages := db.messages.map fun m =>
          if m.id == M.id && m.senderId == e.id then
            { m with text := some newText, isEdited := true }
          else m }) := rfl
  rw [hred, hmap]

/-- C3 witness: user 2 editing user 1's message leaves the store intact. -/
theorem editMessage_by_nonsender_is_noop_witness :
    editMessage (some sampleAuth2) sampleMsg.id "changed" sampleDB
      = (.success, sampleDB) :=
  editMessage_by_nonsender_is_noop sampleAuth2 sampleMsg "changed" sampleDB
    (by decide) (by decide) (by unfold msgIdsNodup; decide)

/-- A map that fixes every element of a list leaves the list unchanged. -/
theorem map_id_of_mem {α : Type} {l : List α} {f : α → α}
    (h : ∀ a ∈ l, f a = a) : l.map f = l := by
  induction l with
  | nil => rfl
  | cons a t ih =>
    rw [List.map_cons, h a (List.mem_cons_self _ _),
      ih fun x hx => h x (List.mem_cons_of_mem _ hx)]

/-- C4: deleting a message as its sender flips only its deleted flag — every
other field of the row and every other row are untouched — and the message,
with its original text and the flag set, is still returned by
`getChatMessages` for its chat. -/
theorem deleteMessage_soft_and_still_listed (sender viewer : AuthUser)
    (M : Message) (db : DB) (hM : M ∈ db.messages) (hids : msgIdsNodup db)
    (hsend : sender.id = M.senderId)
    (hsu : ∃ su ∈ db.users, su.id = M.senderId) :
    (deleteMessage (some sender) M.id db).1 = .success ∧
    (∃ l1 l2, db.messages = l1 ++ M :: l2 ∧
      (deleteMessage (some sender) M.id db).2.messages
        = l1 ++ { M with isDeleted := true } :: l2) ∧
    (∃ v ∈ getChatMessages (some viewer) M.chatId
        (deleteMessage (some sender) M.id db).2,
      v.id = M.id ∧ v.text = M.text ∧ v.isDeleted = true) := by
  obtain ⟨l1, l2, hsplit⟩ := List.append_of_mem hM
  have hf : ∀ a ∈ db.messages, a.id ≠ M.id →
      (if a.id == M.id && a.senderId == sender.id then
        { a with isDeleted := true } else a) = a := by
    intro a _ hne
    simp [hne]
  have hnotmem : M.id ∉ l1.map Message.id ∧ M.id ∉ l2.map Message.id := by
    have h2 : ((l1 ++ M :: l2).map Message.id).Nodup := by
      have := hids; unfold msgIdsNodup at this; rwa [hsplit] at this
    rw [List.map_append, List.map_cons] at h2
    have hd := (List.nodup_append.mp h2).2.2
    have hc := (List.nodup_append.mp h2).2.1
    constructor
    · intro hmem
      exact (hd hmem) (List.mem_cons_self _ _)
    · exact (List.nodup_cons.mp hc).1
  have hmsgs : (deleteMessage (some sender) M.id db).2.messages
      = l1 ++ { M with isDeleted := true } :: l2 := by
    have hred : (deleteMessage (some sender) M.id db).2.messages
        = db.messages.map fun m =>
            if m.id == M.id && m.senderId == sender.id then
              { m with isDeleted := true } else m := rfl
    rw [hred]
    rw [hsplit, List.map_append, List.map_cons]
    congr 1
    · apply map_id_of_mem
      intro a ha
      apply hf a (by rw [hsplit]; exact List.mem_append_left _ ha)
      intro he
      exact hnotmem.1 (he ▸ List.mem_map_of_mem Message.id ha)
    · congr 1
      · simp [hsend]
      · apply map_id_of_mem
        intro a ha
        apply hf a (by
          rw [hsplit]
          exact List.mem_append_right _ (List.mem_cons_of_mem _ ha))
        intro he
        exact hnotmem.2 (he ▸ List.mem_map_of_mem Message.id ha)
  refine ⟨rfl, ⟨l1, l2, hsplit, hmsgs⟩, ?_⟩
  obtain ⟨su, hsu1, hsu2⟩ := hsu
  set M2 : Message := { M with isDeleted := true } with hM2
  set db2 := (deleteMessage (some sender) M.id db).2 with hdb2
  have husers : db2.users = db.users := rfl
  have hMem2 : M2 ∈ db2.messages := by
    rw [hmsgs]
    exact List.mem_append_right _ (List.mem_cons_self _ _)
  set v : MessageView :=
    { id := M2.id, chatId := M2.chatId, senderId := M2.senderId,
      text := M2.text, replyToId := M2.replyToId, isEdited := M2.isEdited,
      isDeleted := M2.isDeleted, createdAt := M2.createdAt,
      senderUsername := su.username, senderDisplayName := su.displayName,
      senderAvatar := su.avatarUrl } with hv
  refine ⟨v, ?_, rfl, rfl, rfl⟩
  have hjoin : v ∈ (db2.messages.filter fun m => m.chatId == M.chatId).flatMap
      fun m => (db2.users.filter fun u => u.id == m.senderId).map fun u =>
        ({ id := m.id, chatId := m.chatId, senderId := m.senderId,
           text := m.text, replyToId := m.replyToId, isEdited := m.isEdited,
           isDeleted := m.isDeleted, createdAt := m.createdAt,
           senderUsername := u.username, senderDisplayName := u.displayName,
           senderAvatar := u.avatarUrl } : MessageView) := by
    apply List.mem_flatMap.mpr
    refine ⟨M2, ?_, ?_⟩
    · apply List.mem_filter.mpr
      exact ⟨hMem2, by simp⟩
    · apply List.mem_map.mpr
      refine ⟨su, ?_, rfl⟩
      apply List.mem_filter.mpr
      rw [husers]
      exact ⟨hsu1, by simp [hsu2]⟩
  have hperm := List.mergeSort_perm
    ((db2.messages.filter fun m => m.chatId == M.chatId).flatMap
      fun m => (db2.users.filter fun u => u.id == m.senderId).map fun u =>
        ({ id := m.id, chatId := m.chatId, senderId := m.senderId,
           text := m.text, replyToId := m.replyToId, isEdited := m.isEdited,
           isDeleted := m.isDeleted, createdAt := m.createdAt,
           senderUsername := u.username, senderDisplayName := u.displayName,
           senderAvatar := u.avatarUrl } : MessageView))
    fun a b => a.createdAt ≤ b.createdAt
  exact hperm.mem_iff.mpr hjoin

/-- C4 witness: user 1 deletes their message; user 2 still sees it, flagged
deleted, original text `"hi"` intact. -/
theorem deleteMessage_soft_and_still_listed_witness :
    (deleteMessage (some sampleAuth) sampleMsg.id sampleDB).1 = .success ∧
    (∃ l1 l2, sampleDB.messages = l1 ++ sampleMsg :: l2 ∧
      (deleteMessage (some sampleAuth) sampleMsg.id sampleDB).2.messages
        = l1 ++ { sampleMsg with isDeleted := true } :: l2) ∧
    (∃ v ∈ getChatMessages (some sampleAuth2) sampleMsg.chatId
        (deleteMessage (some sampleAuth) sampleMsg.id sampleDB).2,
      v.id = sampleMsg.id ∧ v.text = sampleMsg.text ∧ v.isDeleted = true) :=
  deleteMessage_soft_and_still_listed sampleAuth sampleAuth2 sampleMsg sampleDB
    (by decide) (by unfold msgIdsNodup; decide) (by decide)
    ⟨sampleUser, by decide, by decide⟩

/-- C2 counterexample: with `"bob"` registered (stored lowercase), registering
username `"Bob"` (a case variant) with a fresh phone does not return the
DuplicateError result: the case-sensitive pre-check misses and the insert of
the lowercased name hits the `users_username_unique` index, surfacing as a
raised store error. -/
theorem registerAction_case_variant_not_duplicate_error :
    (registerAction "3" "Bob" "Bee" "secret1" 10 sampleDB).1 = .raised ∧
    (registerAction "3" "Bob" "Bee" "secret1" 10 sampleDB).1
      ≠ .err "Phone number or username already registered" := by decide

/-- C2 amended: the duplicate pre-check compares the submitted username
case-sensitively against the stored (lowercase) values.  Registering with an
already-present phone, or with a username that matches a stored one exactly,
returns the DuplicateError result; a differently-cased variant of a stored
username (with a fresh phone) instead escapes the pre-check and the insert
raises on the username unique index rather than returning DuplicateError. -/
theorem registerAction_duplicate_check_is_case_sensitive
    (phone username displayName password : String) (now : Nat) (db : DB)
    (hphone : phone ≠ "") (hdisp : displayName ≠ "")
    (hpw : 6 ≤ password.length) (huser : usernameOk username = true) :
    ((∃ v ∈ db.users, v.phone = phone ∨ v.username = username) →
      registerAction phone username displayName password now db
        = (.err "Phone number or username already registered", db)) ∧
    ((∀ v ∈ db.users, v.phone ≠ phone ∧ v.username ≠ username) →
     (∃ v ∈ db.users, v.username = jsToLower username) →
      registerAction phone username displayName password now db
        = (.raised, db)) := by
  have husername : username ≠ "" := by
    intro h
    rw [h] at huser
    exact absurd huser (by decide)
  have hpwne : password ≠ "" := by
    intro h
    rw [h] at hpw
    exact absurd hpw (by decide)
  have hnlt : ¬ password.length < 6 := Nat.not_lt.mpr hpw
  constructor
  · rintro ⟨v, hv, hvor⟩
    have hex : (db.users.filter fun u =>
        u.phone == phone || u.username == username).isEmpty = false := by
      rw [List.isEmpty_eq_false_iff_exists_mem]
      refine ⟨v, List.mem_filter.mpr ⟨hv, ?_⟩⟩
      cases hvor with
      | inl h => simp [h]
      | inr h => simp [h]
    simp [registerAction, hphone, husername, hdisp, hpwne, hnlt, huser, hex]
  · intro hnone hlower
    have hemp : (db.users.filter fun u =>
        u.phone == phone || u.username == username).isEmpty = true := by
      rw [List.isEmpty_iff, List.filter_eq_nil_iff]
      intro v hv
      have := hnone v hv
      simp [this.1, this.2]
    have hany : (db.users.any fun u =>
        u.username == jsToLower username || u.phone == phone) = true := by
      obtain ⟨v, hv, hveq⟩ := hlower
      exact List.any_eq_true.mpr ⟨v, hv, by simp [hveq]⟩
    simp [registerAction, hphone, husername, hdisp, hpwne, hnlt, huser,
      hemp, hany]

/-- C2 witness: exact-lowercase duplicate and duplicate phone each yield the
DuplicateError result; the case variant yields the raised store error. -/
theorem registerAction_duplicate_check_witness :
    registerAction "3" "bob" "Bee" "secret1" 10 sampleDB
      = (.err "Phone number or username already registered", sampleDB) ∧
    registerAction "1" "carol" "Cee" "secret1" 10 sampleDB
      = (.err "Phone number or username already registered", sampleDB) ∧
    registerAction "3" "BOB" "Bee" "secret1" 10 sampleDB
      = (.raised, sampleDB) := by
  refine ⟨?_, ?_, ?_⟩
  · exact (registerAction_duplicate_check_is_case_sensitive "3" "bob" "Bee"
      "secret1" 10 sampleDB (by decide) (by decide) (by decide) (by decide)).1
      ⟨sampleUser, by decide, Or.inr (by decide)⟩
  · exact (registerAction_duplicate_check_is_case_sensitive "1" "carol" "Cee"
      "secret1" 10 sampleDB (by decide) (by decide) (by decide) (by decide)).1
      ⟨sampleUser, by decide, Or.inl (by decide)⟩
  · exact (registerAction_duplicate_check_is_case_sensitive "3" "BOB" "Bee"
      "secret1" 10 sampleDB (by decide) (by decide) (by decide) (by decide)).2
      (by decide) ⟨sampleUser, by decide, by decide⟩

/-- C8 counterexample: user 1's stored bio is `"hello"`; an update supplying
only a display name (bio and username omitted) succeeds but resets the stored
bio to `""` instead of passing it through unchanged. -/
theorem updateProfile_omitted_bio_clobbered :
    (updateProfile (some sampleAuth) "NewName" "" "" sampleDB).1 = .success ∧
    sampleDB.users.map User.bio = ["hello", ""] ∧
    (updateProfile (some sampleAuth) "NewName" "" "" sampleDB).2.users.map
      User.bio = ["", ""] := by decide

/-- C8 amended: an empty display name is rejected with a validation error and
nothing changes; an omitted username passes through unchanged; but an omitted
bio does not pass through — it is overwritten with the empty string
(`bio || ""`). -/
theorem updateProfile_username_kept_bio_reset (u : AuthUser)
    (d bio username : String) (db : DB)
    (hconsist : ∀ r ∈ db.users, r.id = u.id → r.username = u.username)
    (hnocoll : ∀ r ∈ db.users, r.id ≠ u.id → r.username ≠ u.username)
    (hd : d ≠ "") :
    (updateProfile (some u) "" bio username db
      = (.err "Display name is required", db)) ∧
    (updateProfile (some u) d "" "" db
      = (.success, { db with users := db.users.map fun r =>
          if r.id = u.id then { r with displayName := d, bio := "" }
          else r })) := by
  refine ⟨rfl, ?_⟩
  have hany : (db.users.any fun r =>
      !(r.id == u.id) && r.username == u.username) = false := by
    rw [List.any_eq_false]
    intro r hr
    by_cases hid : r.id = u.id
    · simp [hid]
    · simp [hid, hnocoll r hr hid]
  have hred : updateProfile (some u) d "" "" db
      = if (db.users.any fun r => !(r.id == u.id) && r.username == u.username)
        then (.raised, db)
        else (.success, { db with users := db.users.map fun r =>
          if r.id == u.id then
            { r with displayName := d, bio := "", username := u.username }
          else r }) := by
    show (if d = "" then _ else _) = _
    rw [if_neg hd]
    have hemp : (if jsToLower "" = "" then u.username else jsToLower "")
        = u.username := if_pos rfl
    rw [hemp]
  rw [hred, hany]
  simp only [Bool.false_eq_true, if_false]
  have hmap : (db.users.map fun r =>
      if r.id == u.id then
        { r with displayName := d, bio := "", username := u.username }
      else r)
      = db.users.map fun r =>
        if r.id = u.id then { r with displayName := d, bio := "" } else r := by
    apply List.map_congr_left
    intro r hr
    by_cases hid : r.id = u.id
    · have hu := hconsist r hr hid
      simp [hid, hu]
    · simp [hid]
  rw [hmap]

/-- C8 witness: with consistent session claims and no username collision, an
update supplying only `"NewName"` keeps user 1's username `"bob"` and resets
the bio; the empty-display-name form is rejected unchanged. -/
theorem updateProfile_username_kept_bio_reset_witness :
    (updateProfile (some sampleAuth) "" "x" "y" sampleDB
      = (.err "Display name is required", sampleDB)) ∧
    (updateProfile (some sampleAuth) "NewName" "" "" sampleDB
      = (.success, { sampleDB with users := sampleDB.users.map fun r =>
          if r.id = sampleAuth.id then
            { r with displayName := "NewName", bio := "" }
          else r })) :=
  updateProfile_username_kept_bio_reset sampleAuth "NewName" "x" "y" sampleDB
    (by decide) (by decide) (by decide)

/-- C9 counterexample: `createGroupChat("g", [1])` requested by user 1 inserts
two `chat_members` rows for the pair (chat 2, user 1) — the requester is
prepended to `memberIds` without deduplication, so the (chat, user)
at-most-once invariant is violated. -/
theorem createGroupChat_duplicate_pair :
    ¬ (((createGroupChat (some sampleAuth) "g" [1] 10 sampleDB).2.chatMembers.filter
        fun cm => cm.chatId == 2 && cm.userId == 1).length ≤ 1) := by decide

/-- C9 amended: `createGroupChat` inserts one membership row per element of
`[requester] ++ memberIds` with no deduplication; the (chat, user) pair
uniqueness is preserved only when `memberIds` has no duplicates and does not
contain the requester.  Under that proviso the new chat's roster is exactly
`requester :: memberIds` (each user at most once), and no other chat's roster
changes. -/
theorem createGroupChat_roster (u : AuthUser) (name : String)
    (memberIds : List Nat) (now : Nat) (db : DB)
    (hnodup : memberIds.Nodup) (hself : u.id ∉ memberIds)
    (hfresh : ∀ cm ∈ db.chatMembers, cm.chatId < db.nextChatId) :
    ((((createGroupChat (some u) name memberIds now db).2.chatMembers.filter
        fun cm => cm.chatId == db.nextChatId).map ChatMember.userId)
      = u.id :: memberIds) ∧
    (u.id :: memberIds).Nodup ∧
    (∀ cid, cid ≠ db.nextChatId →
      ((createGroupChat (some u) name memberIds now db).2.chatMembers.filter
        fun cm => cm.chatId == cid)
        = db.chatMembers.filter fun cm => cm.chatId == cid) := by
  have hmembers : (createGroupChat (some u) name memberIds now db).2.chatMembers
      = db.chatMembers ++ ((u.id :: memberIds).enum.map fun p =>
          ({ id := db.nextMemberId + p.1, chatId := db.nextChatId,
             userId := p.2, role := if p.1 = 0 then "owner" else "member",
             joinedAt := now } : ChatMember)) := rfl
  refine ⟨?_, List.nodup_cons.mpr ⟨hself, hnodup⟩, ?_⟩
  · rw [hmembers, List.filter_append]
    have hold : (db.chatMembers.filter fun cm =>
        cm.chatId == db.nextChatId) = [] := by
      rw [List.filter_eq_nil_iff]
      intro cm hcm
      have := hfresh cm hcm
      simp [Nat.ne_of_lt this]
    rw [hold, List.nil_append, List.filter_map]
    have hall : (((u.id :: memberIds).enum).filter
        ((fun cm => cm.chatId == db.nextChatId) ∘ fun p =>
          ({ id := db.nextMemberId + p.1, chatId := db.nextChatId,
             userId := p.2, role := if p.1 = 0 then "owner" else "member",
             joinedAt := now } : ChatMember)))
        = (u.id :: memberIds).enum := by
      rw [List.filter_eq_self]
      intro p _
      simp
    rw [hall, List.map_map]
    have : (ChatMember.userId ∘ fun p : Nat × Nat =>
        ({ id := db.nextMemberId + p.1, chatId := db.nextChatId,
           userId := p.2, role := if p.1 = 0 then "owner" else "member",
           joinedAt := now } : ChatMember)) = Prod.snd := rfl
    rw [this, List.enum_map_snd]
  · intro cid hcid
    rw [hmembers, List.filter_append]
    have hnew : ((((u.id :: memberIds).enum).map fun p =>
        ({ id := db.nextMemberId + p.1, chatId := db.nextChatId,
           userId := p.2, role := if p.1 = 0 then "owner" else "member",
           joinedAt := now } : ChatMember)).filter
        fun cm => cm.chatId == cid) = [] := by
      rw [List.filter_map, List.filter_eq_nil_iff.mpr, List.map_nil]
      intro p _
      simp [Ne.symm hcid]
    rw [hnew, List.append_nil]

/-- C9 witness: a duplicate-free member list that excludes the requester
yields roster `[1, 2]` for the new chat, each user once, and chat 1's roster
is untouched. -/
theorem createGroupChat_roster_witness :
    ((((createGroupChat (some sampleAuth) "g" [2] 10 sampleDB).2.chatMembers.filter
        fun cm => cm.chatId == sampleDB.nextChatId).map ChatMember.userId)
      = sampleAuth.id :: [2]) ∧
    (sampleAuth.id :: [2]).Nodup ∧
    (∀ cid, cid ≠ sampleDB.nextChatId →
      ((createGroupChat (some sampleAuth) "g" [2] 10 sampleDB).2.chatMembers.filter
        fun cm => cm.chatId == cid)
        = sampleDB.chatMembers.filter fun cm => cm.chatId == cid) :=
  createGroupChat_roster sampleAuth "g" [2] 10 sampleDB (by decide) (by decide)
    (by decide)

/-- `find?` skips a prefix on which the predicate is everywhere false. -/
theorem find?_append_of_none {α : Type} {p : α → Bool} {l1 l2 : List α}
    (h : l1.find? p = none) : (l1 ++ l2).find? p = l2.find? p := by
  rw [List.find?_append, h, Option.none_or]

/-- Appending a chat and membership rows that all reference a different chat
id does not change whether `cid` passes the private-chat dedup predicate. -/
theorem isPrivateMatch_stable (db db2 : DB) (target cid : Nat) (c : Chat)
    (ms : List ChatMember)
    (hch : db2.chats = db.chats ++ [c])
    (hcm : db2.chatMembers = db.chatMembers ++ ms)
    (hc : ¬ c.id = cid) (hm : ∀ m ∈ ms, ¬ m.chatId = cid) :
    isPrivateMatch db2 target cid = isPrivateMatch db target cid := by
  unfold isPrivateMatch
  rw [hch, hcm, List.filter_append, List.filter_append]
  have h1 : ([c].filter fun x => x.id == cid && x.ctype == "private") = [] := by
    simp [hc]
  have h2 : (ms.filter fun m => m.chatId == cid) = [] := by
    rw [List.filter_eq_nil_iff]
    intro m hm2
    simp [hm m hm2]
  rw [h1, h2, List.append_nil, List.append_nil]

/-- The chat row and the two membership rows just inserted by
`createPrivateChat` make the fresh chat id pass the dedup predicate. -/
theorem isPrivateMatch_new (db db2 : DB) (target : Nat) (c : Chat)
    (ma mb : ChatMember)
    (hch : db2.chats = db.chats ++ [c])
    (hcm : db2.chatMembers = db.chatMembers ++ [ma, mb])
    (hcid : c.id = db.nextChatId) (hctype : c.ctype = "private")
    (hma : ma.chatId = db.nextChatId) (hmb : mb.chatId = db.nextChatId)
    (ht : mb.userId = target) (hWF : ChatIdsFresh db) :
    isPrivateMatch db2 target db.nextChatId = true := by
  unfold isPrivateMatch
  rw [hch, hcm, List.filter_append, List.filter_append]
  have hold : (db.chats.filter fun x =>
      x.id == db.nextChatId && x.ctype == "private") = [] := by
    rw [List.filter_eq_nil_iff]
    intro x hx
    simp [Nat.ne_of_lt (hWF.1 x hx)]
  have holdm : (db.chatMembers.filter fun m =>
      m.chatId == db.nextChatId) = [] := by
    rw [List.filter_eq_nil_iff]
    intro m hm
    simp [Nat.ne_of_lt (hWF.2 m hm)]
  rw [hold, holdm]
  simp [hcid, hctype, hma, hmb, ht]


/-- Reduction of `createPrivateChat` on the found path. -/
theorem createPrivateChat_found (u : AuthUser) (target now cid : Nat)
    (db : DB) (h : findPrivateChat db u.id target = some cid) :
    createPrivateChat (some u) target now db = (.chatId cid, db) := by
  simp [createPrivateChat, h]

/-- Reduction of `createPrivateChat` on the creation path. -/
theorem createPrivateChat_create (u : AuthUser) (target now : Nat) (db : DB)
    (h : findPrivateChat db u.id target = none) :
    createPrivateChat (some u) target now db
      = (.chatId db.nextChatId,
         { db with
             chats := db.chats ++
               [{ id := db.nextChatId, ctype := "private", name := none,
                  chatDescription := none, avatarUrl := none,
                  createdBy := some u.id, createdAt := now }],
             chatMembers := db.chatMembers ++
               [{ id := db.nextMemberId, chatId := db.nextChatId,
                  userId := u.id, role := "member", joinedAt := now },
                { id := db.nextMemberId + 1, chatId := db.nextChatId,
                  userId := target, role := "member", joinedAt := now }],
             nextChatId := db.nextChatId + 1,
             nextMemberId := db.nextMemberId + 2 }) := by
  simp [createPrivateChat, h]

/-- C1: `createPrivateChat` is idempotent.  If the requester already has a
private chat with exactly two members one of whom is the target, that chat's
id is returned and the store is unchanged; and in every case a second
identical call returns the same chat id as the first and performs no insert
(result and store of the second call equal those of the first). -/
theorem createPrivateChat_idempotent (u : AuthUser) (target t1 t2 : Nat)
    (db : DB) (hWF : ChatIdsFresh db) :
    (∀ cid, findPrivateChat db u.id target = some cid →
      createPrivateChat (some u) target t1 db = (.chatId cid, db)) ∧
    createPrivateChat (some u) target t2
        (createPrivateChat (some u) target t1 db).2
      = createPrivateChat (some u) target t1 db := by
  refine ⟨fun cid h => createPrivateChat_found u target t1 cid db h, ?_⟩
  cases hf : findPrivateChat db u.id target with
  | some cid =>
    rw [createPrivateChat_found u target t1 cid db hf]
    show createPrivateChat (some u) target t2 db = (.chatId cid, db)
    exact createPrivateChat_found u target t2 cid db hf
  | none =>
    set cN : Chat :=
      { id := db.nextChatId, ctype := "private", name := none,
        chatDescription := none, avatarUrl := none, createdBy := some u.id,
        createdAt := t1 } with hcN
    set mA : ChatMember :=
      { id := db.nextMemberId, chatId := db.nextChatId, userId := u.id,
        role := "member", joinedAt := t1 } with hmA
    set mB : ChatMember :=
      { id := db.nextMemberId + 1, chatId := db.nextChatId, userId := target,
        role := "member", joinedAt := t1 } with hmB
    set db1 : DB :=
      { db with chats := db.chats ++ [cN],
                chatMembers := db.chatMembers ++ [mA, mB],
                nextChatId := db.nextChatId + 1,
                nextMemberId := db.nextMemberId + 2 } with hdb1
    have hcall1 : createPrivateChat (some u) target t1 db
        = (.chatId db.nextChatId, db1) :=
      createPrivateChat_create u target t1 db hf
    have hfind2 : findPrivateChat db1 u.id target = some db.nextChatId := by
      show ((db1.chatMembers.filter fun cm => cm.userId == u.id).map
          fun cm => cm.chatId).find? (isPrivateMatch db1 target)
        = some db.nextChatId
      have hcmeq : db1.chatMembers = db.chatMembers ++ [mA, mB] := rfl
      rw [hcmeq, List.filter_append, List.map_append]
      have hf2 : ((db.chatMembers.filter fun cm => cm.userId == u.id).map
          fun cm => cm.chatId).find? (isPrivateMatch db target) = none := hf
      have hpre : (((db.chatMembers.filter fun cm => cm.userId == u.id).map
          fun cm => cm.chatId).find? (isPrivateMatch db1 target)) = none := by
        rw [List.find?_eq_none]
        intro x hx
        obtain ⟨cm, hcm1, hcm2⟩ := List.mem_map.mp hx
        have hxlt : x < db.nextChatId := by
          rw [← hcm2]
          exact hWF.2 cm (List.mem_filter.mp hcm1).1
        have hms : ∀ m ∈ [mA, mB], ¬ m.chatId = x := by
          intro m hm
          rcases List.mem_cons.mp hm with h1 | h1
          · rw [h1, hmA]; exact (Nat.ne_of_lt hxlt).symm
          · rw [List.mem_singleton.mp h1, hmB]
            exact (Nat.ne_of_lt hxlt).symm
        have hstable := isPrivateMatch_stable db db1 target x cN [mA, mB]
          rfl rfl (by rw [hcN]; exact (Nat.ne_of_lt hxlt).symm) hms
        rw [hstable]
        exact List.find?_eq_none.mp hf2 x hx
      rw [find?_append_of_none hpre]
      have hnew : isPrivateMatch db1 target db.nextChatId = true :=
        isPrivateMatch_new db db1 target cN mA mB rfl rfl rfl rfl rfl rfl rfl
          hWF
      have hfilter2 : ([mA, mB].filter fun cm => cm.userId == u.id)
          = mA :: ([mB].filter fun cm => cm.userId == u.id) :=
        List.filter_cons_of_pos (by rw [hmA]; simp)
      rw [hfilter2, List.map_cons]
      have hmAid : mA.chatId = db.nextChatId := by rw [hmA]
      rw [hmAid]
      exact List.find?_cons_of_pos _ hnew
    have hcall2 : createPrivateChat (some u) target t2 db1
        = (.chatId db.nextChatId, db1) :=
      createPrivateChat_found u target t2 db.nextChatId db1 hfind2
    rw [hcall1]
    show createPrivateChat (some u) target t2 db1
      = (.chatId db.nextChatId, db1)
    exact hcall2

/-- C1 witness: starting from a store with no chats, the second identical
call returns the chat created by the first and inserts nothing. -/
theorem createPrivateChat_idempotent_witness :
    createPrivateChat (some sampleAuth) 2 11
        (createPrivateChat (some sampleAuth) 2 10 sampleDB0).2
      = createPrivateChat (some sampleAuth) 2 10 sampleDB0 :=
  (createPrivateChat_idempotent sampleAuth 2 10 11 sampleDB0
    (by unfold ChatIdsFresh; decide)).2

/-- `latestOf` is `none` only on the empty list. -/
theorem latestOf_eq_none (l : List Message) (h : latestOf l = none) :
    l = [] := by
  cases l with
  | nil => rfl
  | cons a t =>
    simp only [latestOf] at h
    cases ht : latestOf t with
    | none =>
      rw [ht] at h
      exact Option.noConfusion h
    | some m2 =>
      have h2 : (if a.createdAt < m2.createdAt then some m2 else some a)
          = none := by rw [ht] at h; exact h
      by_cases hlt : a.createdAt < m2.createdAt
      · rw [if_pos hlt] at h2; exact Option.noConfusion h2
      · rw [if_neg hlt] at h2; exact Option.noConfusion h2

/-- The row returned by the `ORDER BY created_at DESC LIMIT 1` model is in
the list. -/
theorem latestOf_mem (l : List Message) (m : Message)
    (h : latestOf l = some m) : m ∈ l := by
  induction l generalizing m with
  | nil => simp [latestOf] at h
  | cons a t ih =>
    simp only [latestOf] at h
    cases ht : latestOf t with
    | none =>
      rw [ht] at h
      cases Option.some.inj h
      exact List.mem_cons_self _ _
    | some m2 =>
      have h2 : (if a.createdAt < m2.createdAt then some m2 else some a)
          = some m := by rw [ht] at h; exact h
      by_cases hlt : a.createdAt < m2.createdAt
      · rw [if_pos hlt] at h2
        cases Option.some.inj h2
        exact List.mem_cons_of_mem _ (ih _ ht)
      · rw [if_neg hlt] at h2
        cases Option.some.inj h2
        exact List.mem_cons_self _ _

/-- The row returned by the `ORDER BY created_at DESC LIMIT 1` model has the
maximal creation time of the list. -/
theorem latestOf_max (l : List Message) (m : Message)
    (h : latestOf l = some m) : ∀ x ∈ l, x.createdAt ≤ m.createdAt := by
  induction l generalizing m with
  | nil => simp [latestOf] at h
  | cons a t ih =>
    simp only [latestOf] at h
    intro x hx
    cases ht : latestOf t with
    | none =>
      rw [ht] at h
      cases Option.some.inj h
      have htn := latestOf_eq_none t ht
      subst htn
      rcases List.mem_cons.mp hx with h1 | h1
      · rw [h1]
      · simp at h1
    | some m2 =>
      have h2 : (if a.createdAt < m2.createdAt then some m2 else some a)
          = some m := by rw [ht] at h; exact h
      rcases List.mem_cons.mp hx with h1 | h1
      · by_cases hlt : a.createdAt < m2.createdAt
        · rw [if_pos hlt] at h2
          cases Option.some.inj h2
          rw [h1]
          exact Nat.le_of_lt hlt
        · rw [if_neg hlt] at h2
          cases Option.some.inj h2
          rw [h1]
      · have hle := ih m2 ht x h1
        by_cases hlt : a.createdAt < m2.createdAt
        · rw [if_pos hlt] at h2
          cases Option.some.inj h2
          exact hle
        · rw [if_neg hlt] at h2
          cases Option.some.inj h2
          exact Nat.le_trans hle (Nat.le_of_not_lt hlt)

/-- Characterisation of `lastMsg`: it is a non-deleted message of the chat
with maximal creation time among those. -/
theorem lastMsg_props (db : DB) (cid : Nat) (m : Message)
    (h : lastMsg db cid = some m) :
    m ∈ db.messages ∧ m.chatId = cid ∧ m.isDeleted = false ∧
    ∀ m2 ∈ db.messages, m2.chatId = cid → m2.isDeleted = false →
      m2.createdAt ≤ m.createdAt := by
  unfold lastMsg at h
  have hmem := latestOf_mem _ _ h
  have hmf := List.mem_filter.mp hmem
  have hpred := hmf.2
  simp only [Bool.and_eq_true, beq_iff_eq, Bool.not_eq_true'] at hpred
  refine ⟨hmf.1, hpred.1, hpred.2, ?_⟩
  intro m2 hm2 hc2 hd2
  exact latestOf_max _ _ h m2
    (List.mem_filter.mpr ⟨hm2, by simp [hc2, hd2]⟩)

/-- Characterisation of a summary built by `getUserChats`: its identity and
creation time come from the chat row, its `lastMessage` is `lastMsg`. -/
theorem buildSummary_props (db : DB) (uid cid : Nat) (s : ChatSummary)
    (h : buildSummary db uid cid = some s) :
    (∃ c ∈ db.chats, c.id = cid ∧ s.id = c.id ∧ s.createdAt = c.createdAt) ∧
    s.lastMessage = lastMsg db cid := by
  unfold buildSummary at h
  cases hfil : db.chats.filter fun c => c.id == cid with
  | nil =>
    rw [hfil] at h
    exact absurd h (by simp)
  | cons chat rest =>
    rw [hfil] at h
    have hchat_mem : chat ∈ db.chats.filter fun c => c.id == cid := by
      rw [hfil]
      exact List.mem_cons_self _ _
    have hcf := List.mem_filter.mp hchat_mem
    have hcid : chat.id = cid := by
      have := hcf.2
      simpa using this
    have h2 := Option.some.inj h
    refine ⟨⟨chat, hcf.1, hcid, ?_, ?_⟩, ?_⟩
    · rw [← h2]
    · rw [← h2]
    · rw [← h2]

/-- Under nonzero timestamps, the comparator key of the chat-list sort
coincides with the spec's key (last-message time if any, else chat creation
time). -/
theorem jsSortTime_eq_specSortKey (s : ChatSummary)
    (h : ∀ m, s.lastMessage = some m → 0 < m.createdAt) :
    jsSortTime s = specSortKey s := by
  unfold jsSortTime specSortKey
  cases hl : s.lastMessage with
  | none => rfl
  | some m =>
    have hpos := h m hl
    show (if m.createdAt = 0 then s.createdAt else m.createdAt) = m.createdAt
    rw [if_neg (Nat.pos_iff_ne_zero.mp hpos)]

/-- C6: with the real-world proviso that row timestamps are nonzero (drizzle
stamps `new Date()`), `getUserChats` returns a permutation of the requester's
chat summaries ordered descending by the spec key: the creation time of the
chat's most recent non-deleted message when one exists (conjuncts 3-4 pin
that key to the store), else the chat's own creation time — one shared
timestamp axis. -/
theorem getUserChats_sorted_by_activity (u : AuthUser) (db : DB)
    (_hc : ∀ c ∈ db.chats, 0 < c.createdAt)
    (hm : ∀ m ∈ db.messages, 0 < m.createdAt) :
    (getUserChats (some u) db).Perm (userChatList db u.id) ∧
    (getUserChats (some u) db).Pairwise
      (fun a b => specSortKey b ≤ specSortKey a) ∧
    (∀ s ∈ getUserChats (some u) db, ∀ m, s.lastMessage = some m →
      m ∈ db.messages ∧ m.chatId = s.id ∧ m.isDeleted = false ∧
      (∀ m2 ∈ db.messages, m2.chatId = s.id → m2.isDeleted = false →
        m2.createdAt ≤ m.createdAt)) ∧
    (∀ s ∈ getUserChats (some u) db,
      ∃ c ∈ db.chats, c.id = s.id ∧ s.createdAt = c.createdAt) := by
  have hred : getUserChats (some u) db
      = (userChatList db u.id).mergeSort
          fun a b => jsSortTime b ≤ jsSortTime a := rfl
  have hperm : (getUserChats (some u) db).Perm (userChatList db u.id) := by
    rw [hred]
    exact List.mergeSort_perm _ _
  have hmemlist : ∀ s ∈ getUserChats (some u) db, s ∈ userChatList db u.id :=
    fun s hs => hperm.mem_iff.mp hs
  have hprops : ∀ s ∈ userChatList db u.id,
      (∃ c ∈ db.chats, c.id = s.id ∧ s.createdAt = c.createdAt) ∧
      (∀ m, s.lastMessage = some m →
        m ∈ db.messages ∧ m.chatId = s.id ∧ m.isDeleted = false ∧
        ∀ m2 ∈ db.messages, m2.chatId = s.id → m2.isDeleted = false →
          m2.createdAt ≤ m.createdAt) := by
    intro s hs
    obtain ⟨cid, _, hbs⟩ := List.mem_filterMap.mp hs
    obtain ⟨⟨c, hcmem, hceq, hsid, hscr⟩, hlast⟩ :=
      buildSummary_props db u.id cid s hbs
    have hsid2 : s.id = cid := by rw [hsid, hceq]
    constructor
    · exact ⟨c, hcmem, by rw [hsid], hscr⟩
    · intro m hlm
      rw [hlast] at hlm
      obtain ⟨q1, q2, q3, q4⟩ := lastMsg_props db cid m hlm
      refine ⟨q1, by rw [hsid2]; exact q2, q3, ?_⟩
      intro m2 hm2 hcm2 hdm2
      exact q4 m2 hm2 (by rw [← hsid2]; exact hcm2) hdm2
  have hkey : ∀ s ∈ userChatList db u.id, jsSortTime s = specSortKey s := by
    intro s hs
    apply jsSortTime_eq_specSortKey
    intro m hlm
    exact hm m (((hprops s hs).2 m hlm).1)
  refine ⟨hperm, ?_, ?_, ?_⟩
  · have htrans : ∀ a b c : ChatSummary,
        decide (jsSortTime b ≤ jsSortTime a) = true →
        decide (jsSortTime c ≤ jsSortTime b) = true →
        decide (jsSortTime c ≤ jsSortTime a) = true := by
      intro a b c h1 h2
      have h1b := of_decide_eq_true h1
      have h2b := of_decide_eq_true h2
      exact decide_eq_true (Nat.le_trans h2b h1b)
    have htotal : ∀ a b : ChatSummary,
        (decide (jsSortTime b ≤ jsSortTime a) ||
         decide (jsSortTime a ≤ jsSortTime b)) = true := by
      intro a b
      rcases Nat.le_total (jsSortTime b) (jsSortTime a) with h | h <;> simp [h]
    have hsorted := @List.sorted_mergeSort ChatSummary
      (fun a b => decide (jsSortTime b ≤ jsSortTime a)) htrans htotal
      (userChatList db u.id)
    have hsorted2 : ((userChatList db u.id).mergeSort
        fun a b => jsSortTime b ≤ jsSortTime a).Pairwise
        fun a b => jsSortTime b ≤ jsSortTime a :=
      hsorted.imp fun h => of_decide_eq_true h
    rw [hred]
    apply hsorted2.imp_of_mem
    intro a b ha hb hle
    have ha2 := (List.mergeSort_perm (userChatList db u.id)
      fun a b => jsSortTime b ≤ jsSortTime a).subset ha
    have hb2 := (List.mergeSort_perm (userChatList db u.id)
      fun a b => jsSortTime b ≤ jsSortTime a).subset hb
    rw [← hkey a ha2, ← hkey b hb2]
    exact hle
  · intro s hs
    exact (hprops s (hmemlist s hs)).2
  · intro s hs
    exact (hprops s (hmemlist s hs)).1

/-- C6 witness: the fixture store has positive timestamps; the requester's
chat list is sorted on the spec key. -/
theorem getUserChats_sorted_by_activity_witness :
    (getUserChats (some sampleAuth) sampleDB).Perm
      (userChatList sampleDB sampleAuth.id) ∧
    (getUserChats (some sampleAuth) sampleDB).Pairwise
      (fun a b => specSortKey b ≤ specSortKey a) ∧
    (∀ s ∈ getUserChats (some sampleAuth) sampleDB, ∀ m,
      s.lastMessage = some m →
      m ∈ sampleDB.messages ∧ m.chatId = s.id ∧ m.isDeleted = false ∧
      (∀ m2 ∈ sampleDB.messages, m2.chatId = s.id → m2.isDeleted = false →
        m2.createdAt ≤ m.createdAt)) ∧
    (∀ s ∈ getUserChats (some sampleAuth) sampleDB,
      ∃ c ∈ sampleDB.chats, c.id = s.id ∧ s.createdAt = c.createdAt) :=
  getUserChats_sorted_by_activity sampleAuth sampleDB (by decide) (by decide)
